import Mathlib

/-!
Verification of the IPL points-table server (`src/server.js`).

The JavaScript core is shallowly embedded as follows.

* The team `LinkedList` is a `List Team`; node references are modelled as
  indices into that list, and in-place mutation through a reference becomes
  `listModify` at the node's index, applied in exactly the statement order of
  the source.  Aliasing (both lookups returning the same node) is therefore
  represented faithfully: both indices coincide and the updates compose.
* JavaScript numbers are modelled as `Int` (scores, runs, points) and `Nat`
  (counters).  `netRunRate` — which the spec describes as signed fixed-point
  with two decimal places — is stored in integer hundredths, so the JS value
  `30.0` is the model value `3000`.  `toFixed(2)` followed by `parseFloat` is
  modelled as exact half-away-from-zero rounding of the exact rational
  quotient to hundredths (`round2cent`); the binary-double rounding error of
  the source's floating-point division is idealised away.
* `teamData.x || default` is modelled by the `jsOr*` helpers (`0`, `""` and
  absent fields are falsy; arrays are always truthy).
* `String.prototype.toLowerCase`/`toUpperCase` are modelled by mapping
  `Char.toLower`/`Char.toUpper` over the character list of the string.
* The `Stack` of match records and the `Queue` of fixtures are lists with the
  push/enqueue end at the tail.
* `new Date()` is modelled by an explicit `now : Nat` argument.
* `throw new Error('Team not found')` becomes `Except.error "Team not found"`.
* V8's `Array.prototype.sort` with a consistent comparator is a stable sort,
  so `getStandings` is modelled with `List.mergeSort` and the boolean
  translation `standingsLE` of the comparator
  `(a, b) => b.points - a.points || b.netRunRate - a.netRunRate`.
-/

namespace IPL

/-- JS `v || d` for string fields: `undefined`/`""` are falsy. -/
def jsOrStr (v : Option String) (d : String) : String :=
  match v with
  | none => d
  | some s => if s = "" then d else s

/-- JS `v || d` for integer number fields: `undefined`/`0` are falsy. -/
def jsOrInt (v : Option Int) (d : Int) : Int :=
  match v with
  | none => d
  | some n => if n = 0 then d else n

/-- JS `v || d` for non-negative counter fields: `undefined`/`0` are falsy. -/
def jsOrNat (v : Option Nat) (d : Nat) : Nat :=
  match v with
  | none => d
  | some n => if n = 0 then d else n

/-- JS `v || d` for array fields: arrays are always truthy, so only an absent
field takes the default. -/
def jsOrList (v : Option (List Char)) (d : List Char) : List Char :=
  match v with
  | none => d
  | some l => l

/-- Model of JS `s.toLowerCase()`. -/
def jsToLower (s : String) : String :=
  String.mk (s.data.map Char.toLower)

/-- Model of JS `s.split(' ')` on the character list: splits at every single
space, keeping empty words (as `split` does). -/
def splitOnSpace (l : List Char) : List (List Char) :=
  l.foldr
    (fun c acc =>
      if c = ' ' then [] :: acc
      else
        match acc with
        | [] => [[c]]
        | w :: ws => (c :: w) :: ws)
    [[]]

/-- Model of `name.split(' ').map(w => w[0]).join('').toUpperCase()` from the
`TeamNode` constructor.  `w[0]` of an empty word is `undefined`, which `join`
renders as the empty string, hence `filterMap List.head?`. -/
def deriveShortName (name : String) : String :=
  String.mk (((splitOnSpace name.data).filterMap List.head?).map Char.toUpper)

/-- A team record, mirroring the fields of `TeamNode` (the `next` pointer is
the list structure itself).  `netRunRate` is in integer hundredths. -/
structure Team where
  name : String
  shortName : String
  captain : String
  homeGround : String
  color : String
  points : Int
  netRunRate : Int
  matchesPlayed : Nat
  wins : Nat
  losses : Nat
  noResults : Nat
  runsScored : Int
  runsConceded : Int
  form : List Char
deriving DecidableEq, Repr

/-- The `teamData` argument of the `TeamNode` constructor: every field but the
name may be absent. -/
structure TeamData where
  name : String
  shortName : Option String
  captain : Option String
  homeGround : Option String
  color : Option String
  points : Option Int
  netRunRate : Option Int
  matchesPlayed : Option Nat
  wins : Option Nat
  losses : Option Nat
  noResults : Option Nat
  runsScored : Option Int
  runsConceded : Option Int
  form : Option (List Char)
deriving DecidableEq, Repr

/-- The `TeamNode` constructor (src/server.js lines 3–21). -/
def mkTeamNode (td : TeamData) : Team :=
  { name := td.name
    shortName := jsOrStr td.shortName (deriveShortName td.name)
    captain := jsOrStr td.captain ""
    homeGround := jsOrStr td.homeGround ""
    color := jsOrStr td.color "#000000"
    points := jsOrInt td.points 0
    netRunRate := jsOrInt td.netRunRate 0
    matchesPlayed := jsOrNat td.matchesPlayed 0
    wins := jsOrNat td.wins 0
    losses := jsOrNat td.losses 0
    noResults := jsOrNat td.noResults 0
    runsScored := jsOrInt td.runsScored 0
    runsConceded := jsOrInt td.runsConceded 0
    form := jsOrList td.form [] }

/-- `LinkedList.addTeam`: appends the new node at the end of the list. -/
def addTeam (l : List Team) (td : TeamData) : List Team :=
  l ++ [mkTeamNode td]

/-- The predicate of `LinkedList.findTeam`: case-insensitive name match. -/
def nameMatches (target : String) (tm : Team) : Bool :=
  jsToLower tm.name == jsToLower target

/-- `LinkedList.findTeam`: first node whose name matches case-insensitively. -/
def findTeam (l : List Team) (name : String) : Option Team :=
  l.find? (nameMatches name)

/-- Index of the node `LinkedList.findTeam` would return; mutation through the
returned node reference is modelled as mutation at this index. -/
def findTeamIdx (l : List Team) (name : String) : Option Nat :=
  l.findIdx? (nameMatches name)

/-- `LinkedList.getAllTeams`: the nodes in insertion order. -/
def getAllTeams (l : List Team) : List Team :=
  l

/-- Boolean translation of the standings comparator
`(a, b) => b.points - a.points || b.netRunRate - a.netRunRate`:
`standingsLE a b` holds iff the comparator does not require `b` before `a`. -/
def standingsLE (a b : Team) : Bool :=
  decide (b.points < a.points) ||
    (decide (a.points = b.points) && decide (b.netRunRate ≤ a.netRunRate))

/-- `LinkedList.getStandings`: a fresh stable sort of `getAllTeams` by the
comparator above. -/
def getStandings (l : List Team) : List Team :=
  (getAllTeams l).mergeSort standingsLE

/-- `LinkedList.getRanking`: 1-based position in the standings, 0 if absent. -/
def getRanking (l : List Team) (name : String) : Nat :=
  match List.findIdx? (nameMatches name) (getStandings l) with
  | some i => i + 1
  | none => 0

/-- `Stack.getAll`: a reversed copy of the items, most recent first. -/
def stackGetAll {α : Type} (items : List α) : List α :=
  items.reverse

/-- An immutable completed-match record.  The JS `result` object is `{}` then
either `{winner: name}` or `{tie: true}`; it is modelled by the two fields
`resultWinner` and `resultTie`. -/
structure MatchRec where
  team1 : String
  team2 : String
  team1Score : Int
  team2Score : Int
  winner : String
  resultWinner : Option String
  resultTie : Bool
  date : Nat
deriving DecidableEq, Repr

/-- A fixture-queue entry: future-match metadata, opaque to the engine. -/
structure Fixture where
  payload : String
deriving DecidableEq, Repr

/-- The `IPLTournament` state: the three collections. -/
structure Tournament where
  teams : List Team
  matchHistory : List MatchRec
  upcomingMatches : List Fixture
deriving DecidableEq, Repr

/-- Replace the element at index `i` by `f` of it (out-of-range: no change).
This is the embedding of an in-place field assignment through a node
reference. -/
def listModify {α : Type} (l : List α) (i : Nat) (f : α → α) : List α :=
  match l, i with
  | [], _ => []
  | a :: t, 0 => f a :: t
  | a :: t, n + 1 => a :: listModify t n f

/-- Half-away-from-zero rounding of `diff / mp` to hundredths, returned in
integer hundredths: the model of
`parseFloat(((runsScored - runsConceded) / matchesPlayed).toFixed(2))`. -/
def round2cent (diff : Int) (mp : Nat) : Int :=
  let mag : Nat := (200 * diff.natAbs + mp) / (2 * mp)
  if diff < 0 then -(mag : Int) else (mag : Int)

/-- The net-run-rate formula of lines 211–212:
`mp > 0 ? round((rs - rc) / mp, 2) : 0`, in hundredths. -/
def computeNRR (tm : Team) : Int :=
  if 0 < tm.matchesPlayed then
    round2cent (tm.runsScored - tm.runsConceded) tm.matchesPlayed
  else 0

/-- `IPLTournament.recordMatch` (lines 161–230).  The two lookups happen
first; a failed lookup throws before any assignment.  Afterwards each
assignment of the source is one `listModify` at the corresponding node's
index, in source order, so aliasing when both lookups hit the same node is
preserved. -/
def recordMatch (t : Tournament) (team1 team2 : String)
    (team1Score team2Score : Int) (now : Nat) :
    Except String (MatchRec × Tournament) :=
  match findTeamIdx t.teams team1, findTeamIdx t.teams team2 with
  | some i, some j =>
    let l1 := listModify t.teams i fun tm =>
      { tm with matchesPlayed := tm.matchesPlayed + 1 }
    let l2 := listModify l1 j fun tm =>
      { tm with matchesPlayed := tm.matchesPlayed + 1 }
    let l3 := listModify l2 i fun tm =>
      { tm with runsScored := tm.runsScored + team1Score }
    let l4 := listModify l3 j fun tm =>
      { tm with runsScored := tm.runsScored + team2Score }
    let l5 := listModify l4 i fun tm =>
      { tm with runsConceded := tm.runsConceded + team2Score }
    let l6 := listModify l5 j fun tm =>
      { tm with runsConceded := tm.runsConceded + team1Score }
    let outcome : List Team × String × Option String × Bool :=
      if team1Score > team2Score then
        let b1 := listModify l6 i fun tm => { tm with wins := tm.wins + 1 }
        let b2 := listModify b1 j fun tm => { tm with losses := tm.losses + 1 }
        let b3 := listModify b2 i fun tm => { tm with points := tm.points + 2 }
        let b4 := listModify b3 i fun tm => { tm with form := 'W' :: tm.form }
        let b5 := listModify b4 j fun tm => { tm with form := 'L' :: tm.form }
        (b5, team1, some team1, false)
      else if team2Score > team1Score then
        let b1 := listModify l6 j fun tm => { tm with wins := tm.wins + 1 }
        let b2 := listModify b1 i fun tm => { tm with losses := tm.losses + 1 }
        let b3 := listModify b2 j fun tm => { tm with points := tm.points + 2 }
        let b4 := listModify b3 j fun tm => { tm with form := 'W' :: tm.form }
        let b5 := listModify b4 i fun tm => { tm with form := 'L' :: tm.form }
        (b5, team2, some team2, false)
      else
        let b1 := listModify l6 i fun tm =>
          { tm with noResults := tm.noResults + 1 }
        let b2 := listModify b1 j fun tm =>
          { tm with noResults := tm.noResults + 1 }
        let b3 := listModify b2 i fun tm => { tm with points := tm.points + 1 }
        let b4 := listModify b3 j fun tm => { tm with points := tm.points + 1 }
        let b5 := listModify b4 i fun tm => { tm with form := 'T' :: tm.form }
        let b6 := listModify b5 j fun tm => { tm with form := 'T' :: tm.form }
        (b6, "Tie", none, true)
    let l7 := outcome.1
    let l8 := listModify l7 i fun tm => { tm with netRunRate := computeNRR tm }
    let l9 := listModify l8 j fun tm => { tm with netRunRate := computeNRR tm }
    let l10 := listModify l9 i fun tm => { tm with form := tm.form.take 5 }
    let l11 := listModify l10 j fun tm => { tm with form := tm.form.take 5 }
    let m : MatchRec :=
      { team1 := team1
        team2 := team2
        team1Score := team1Score
        team2Score := team2Score
        winner := outcome.2.1
        resultWinner := outcome.2.2.1
        resultTie := outcome.2.2.2
        date := now }
    Except.ok
      (m,
        { teams := l11
          matchHistory := t.matchHistory ++ [m]
          upcomingMatches := t.upcomingMatches })
  | _, _ => Except.error "Team not found"

/-- One `recordMatch` call as issued through the API: the boundary catches the
thrown error, so a failing call leaves the tournament as it was. -/
structure MatchCall where
  team1 : String
  team2 : String
  score1 : Int
  score2 : Int
  date : Nat
deriving DecidableEq, Repr

/-- The tournament state after one `recordMatch` call (unchanged when the call
throws). -/
def recordMatchStep (t : Tournament) (c : MatchCall) : Tournament :=
  match recordMatch t c.team1 c.team2 c.score1 c.score2 c.date with
  | Except.ok (_, t') => t'
  | Except.error _ => t

/-- The tournament state after a sequence of `recordMatch` calls. -/
def runMatches (t : Tournament) (cs : List MatchCall) : Tournament :=
  cs.foldl recordMatchStep t

/-- `IPLTournament.getMatchHistory(limit = 50)`:
`matchHistory.getAll().slice(0, limit)`.  An absent argument takes the default
limit 50. -/
def getMatchHistory (t : Tournament) (limit : Option Nat) : List MatchRec :=
  (stackGetAll t.matchHistory).take (limit.getD 50)

/-- `IPLTournament.getPlayoffTeams`: `getStandings().slice(0, 4)`. -/
def getPlayoffTeams (t : Tournament) : List Team :=
  (getStandings t.teams).take 4

/-- The payload of `IPLTournament.getTournamentStats`. -/
structure TournamentStats where
  totalTeams : Nat
  matchesPlayed : Nat
  playoffTeams : List String
deriving DecidableEq, Repr

/-- `IPLTournament.getTournamentStats`. -/
def getTournamentStats (t : Tournament) : TournamentStats :=
  { totalTeams := (getAllTeams t.teams).length
    matchesPlayed := t.matchHistory.length
    playoffTeams := (getPlayoffTeams t).map (fun tm => tm.name) }

/-- `IPLTournament.addUpcomingMatch`: FIFO enqueue at the tail. -/
def addUpcomingMatch (t : Tournament) (f : Fixture) : Tournament :=
  { t with upcomingMatches := t.upcomingMatches ++ [f] }

/-- `IPLTournament.resetTournament`: all three collections reinitialised. -/
def resetTournament (_ : Tournament) : Tournament :=
  { teams := [], matchHistory := [], upcomingMatches := [] }

/-- JS falsiness of the `team1`/`team2` request fields: absent or empty. -/
def strFalsy : Option String → Bool
  | none => true
  | some s => s == ""

/-- `parseInt(x) || 0` of a score field: an absent or non-numeric score
parses to `NaN` and is coerced to `0`; a parsed `0` is falsy and also yields
`0`. -/
def parseScore : Option Int → Int
  | none => 0
  | some n => n

/-- Outcome of a request to `POST /api/matches`:  a 400 validation rejection,
a recorded match, or a 400 carrying the error thrown by the core. -/
inductive ApiResult where
  | validationError (message : String)
  | recorded (m : MatchRec) (t' : Tournament)
  | coreError (message : String)
deriving DecidableEq, Repr

/-- Classifier for the boundary-level rejection outcome. -/
def isValidationError : ApiResult → Bool
  | ApiResult.validationError _ => true
  | _ => false

/-- Classifier for the outcome in which the core recorded the match. -/
def isRecorded : ApiResult → Bool
  | ApiResult.recorded _ _ => true
  | _ => false

/-- The `POST /api/matches` handler (lines 301–327): name checks, score
coercion, the both-zero rejection, then the core call. -/
def postMatches (t : Tournament) (team1 team2 : Option String)
    (s1 s2 : Option Int) (now : Nat) : ApiResult :=
  if strFalsy team1 || strFalsy team2 then
    ApiResult.validationError "Both teams are required"
  else
    let score1 := parseScore s1
    let score2 := parseScore s2
    if score1 == 0 && score2 == 0 then
      ApiResult.validationError "Please enter scores for both teams"
    else
      match recordMatch t (team1.getD "") (team2.getD "") score1 score2 now with
      | Except.ok (m, t') => ApiResult.recorded m t'
      | Except.error msg => ApiResult.coreError msg

/-- The per-team bookkeeping invariant of the spec:
`matchesPlayed == wins + losses + noResults`. -/
def balancedTeam (tm : Team) : Bool :=
  tm.matchesPlayed == tm.wins + tm.losses + tm.noResults

/-- A team whose four match counters are all zero, as produced by registering
with zeroed counters. -/
def zeroedTeam (tm : Team) : Bool :=
  tm.matchesPlayed == 0 && tm.wins == 0 && tm.losses == 0 && tm.noResults == 0

/-- The net-run-rate formula holds of this team record (hundredths scale). -/
def nrrOK (tm : Team) : Bool :=
  tm.netRunRate ==
    (if 0 < tm.matchesPlayed then
      round2cent (tm.runsScored - tm.runsConceded) tm.matchesPlayed
    else 0)

/-- Exact rational half-away-from-zero rounding to two decimal places, the
idealised semantics of `parseFloat(x.toFixed(2))`. -/
def round2Q (q : ℚ) : ℚ :=
  if q < 0 then -(((⌊-q * 100 + 1 / 2⌋ : ℤ) : ℚ) / 100)
  else ((⌊q * 100 + 1 / 2⌋ : ℤ) : ℚ) / 100

/-- The net-run-rate formula of the spec, read at rational-number scale: the
stored hundredths, divided by 100, are the 2-decimal rounding of
`(runsScored - runsConceded) / matchesPlayed` (and `0` with no matches). -/
def nrrOKQ (tm : Team) : Prop :=
  ((tm.netRunRate : ℚ) / 100) =
    (if 0 < tm.matchesPlayed then
      round2Q (((tm.runsScored : ℚ) - (tm.runsConceded : ℚ)) /
        (tm.matchesPlayed : ℚ))
    else 0)

/-- Lift of `nrrOKQ` to the optional team at an index. -/
def optNrrOKQ : Option Team → Prop
  | none => True
  | some tm => nrrOKQ tm

/-- Form sequences never longer than five entries. -/
def formLenOK (tm : Team) : Bool :=
  decide (tm.form.length ≤ 5)

/-- Registration data carrying only a name, every optional field absent. -/
def basicTeamData (n : String) : TeamData :=
  { name := n
    shortName := none
    captain := none
    homeGround := none
    color := none
    points := none
    netRunRate := none
    matchesPlayed := none
    wins := none
    losses := none
    noResults := none
    runsScored := none
    runsConceded := none
    form := none }

/-- Registration data for a team supplied with a six-entry form. -/
def sixFormData : TeamData :=
  { basicTeamData "Zeta" with form := some ['W', 'W', 'L', 'T', 'W', 'L'] }

/-- A concrete tournament with the two zero-counter teams Alpha and Beta. -/
def t0ex : Tournament :=
  { teams := addTeam (addTeam [] (basicTeamData "Alpha")) (basicTeamData "Beta")
    matchHistory := []
    upcomingMatches := [] }

/-- A concrete tournament containing the six-entry-form team and Alpha. -/
def t6ex : Tournament :=
  { teams := addTeam (addTeam [] sixFormData) (basicTeamData "Alpha")
    matchHistory := []
    upcomingMatches := [] }

/-- The match record produced by recording Alpha 180 – Beta 150 at time 0. -/
def m180ex : MatchRec :=
  { team1 := "Alpha"
    team2 := "Beta"
    team1Score := 180
    team2Score := 150
    winner := "Alpha"
    resultWinner := some "Alpha"
    resultTie := false
    date := 0 }

/-- The match record produced by recording the tie Alpha 150 – Beta 150. -/
def m150ex : MatchRec :=
  { team1 := "Alpha"
    team2 := "Beta"
    team1Score := 150
    team2Score := 150
    winner := "Tie"
    resultWinner := none
    resultTie := true
    date := 0 }

/-- The match record produced by Alpha 100 – ALPHA 90 (self-match). -/
def mSelfEx : MatchRec :=
  { team1 := "Alpha"
    team2 := "ALPHA"
    team1Score := 100
    team2Score := 90
    winner := "Alpha"
    resultWinner := some "Alpha"
    resultTie := false
    date := 0 }

/-- The state after recording Alpha 180 – Beta 150 on `t0ex`. -/
def t180ex : Tournament :=
  recordMatchStep t0ex { team1 := "Alpha", team2 := "Beta", score1 := 180, score2 := 150, date := 0 }

/-- The state after recording the tie Alpha 150 – Beta 150 on `t0ex`. -/
def t150ex : Tournament :=
  recordMatchStep t0ex { team1 := "Alpha", team2 := "Beta", score1 := 150, score2 := 150, date := 0 }

/-- The state after recording Alpha 100 – ALPHA 90 on `t0ex`. -/
def tSelfEx : Tournament :=
  recordMatchStep t0ex { team1 := "Alpha", team2 := "ALPHA", score1 := 100, score2 := 90, date := 0 }

/-- The call recording Alpha 180 – Beta 150. -/
def c180 : MatchCall :=
  { team1 := "Alpha", team2 := "Beta", score1 := 180, score2 := 150, date := 0 }

/-- A call naming the unregistered team Ghost. -/
def cGhost : MatchCall :=
  { team1 := "Ghost", team2 := "Alpha", score1 := 100, score2 := 90, date := 0 }

/-- A call whose participants include the six-entry-form team. -/
def czeta : MatchCall :=
  { team1 := "Zeta", team2 := "Alpha", score1 := 10, score2 := 20, date := 0 }

/-- The team record produced by registering Alpha with bare data. -/
def alphaNode : Team := mkTeamNode (basicTeamData "Alpha")

/-- The team record produced by registering Beta with bare data. -/
def betaNode : Team := mkTeamNode (basicTeamData "Beta")

instance {ε α : Type} [DecidableEq ε] [DecidableEq α] : DecidableEq (Except ε α) :=
  fun a b =>
    match a, b with
    | Except.ok x, Except.ok y =>
      if h : x = y then Decidable.isTrue (by rw [h])
      else Decidable.isFalse (fun hc => h (Except.ok.inj hc))
    | Except.error x, Except.error y =>
      if h : x = y then Decidable.isTrue (by rw [h])
      else Decidable.isFalse (fun hc => h (Except.error.inj hc))
    | Except.ok _, Except.error _ => Decidable.isFalse (fun hc => Except.noConfusion hc)
    | Except.error _, Except.ok _ => Decidable.isFalse (fun hc => Except.noConfusion hc)

/-- Reading index `k` of a list modified at index `i` gives the modified element exactly when `k = i`. -/
theorem listModify_getElem? {α : Type} (l : List α) (i : Nat) (f : α → α) (k : Nat) :
    (listModify l i f)[k]? = if k = i then (l[k]?).map f else l[k]? := by
  induction l generalizing i k with
  | nil => simp [listModify]
  | cons a t ih =>
    cases i with
    | zero =>
      cases k with
      | zero => simp [listModify]
      | succ k => simp [listModify]
    | succ i =>
      cases k with
      | zero => simp [listModify]
      | succ k => simpa [listModify] using ih i k

/-- When no element satisfies the predicate, `findIdx?` returns `none` from any start index. -/
theorem findIdx?_eq_none_of_all {α : Type} (p : α → Bool) (l : List α) (n : Nat)
    (h : ∀ x ∈ l, ¬ p x = true) : l.findIdx? p n = none := by
  induction l generalizing n with
  | nil => simp
  | cons a t ih =>
    rw [List.findIdx?_cons]
    have hpa : p a = false := by
      have := h a (by simp)
      simpa using this
    simp only [hpa, if_false, Bool.false_eq_true]
    exact ih (n + 1) (fun x hx => h x (by simp [hx]))

/-- The standings comparator is transitive. -/
theorem standingsLE_trans (a b c : Team) (hab : standingsLE a b = true)
    (hbc : standingsLE b c = true) : standingsLE a c = true := by
  simp only [standingsLE, Bool.or_eq_true, Bool.and_eq_true,
    decide_eq_true_eq] at hab hbc ⊢
  omega

/-- The standings comparator is total. -/
theorem standingsLE_total (a b : Team) :
    (standingsLE a b || standingsLE b a) = true := by
  simp only [standingsLE, Bool.or_eq_true, Bool.and_eq_true,
    decide_eq_true_eq]
  omega

/-- Floor of `a * 100 / mp + 1/2` over the rationals agrees with the natural-number division used by `round2cent`. -/
theorem floor_quot_helper (a mp : Nat) (hmp : 0 < mp) :
    ⌊((a : ℚ) * 100 / (mp : ℚ)) + 1 / 2⌋ = (((200 * a + mp) / (2 * mp) : ℕ) : ℤ) := by
  have hmpQ : ((mp : ℕ) : ℚ) ≠ 0 := by
    exact_mod_cast Nat.pos_iff_ne_zero.mp hmp
  have heq : (a : ℚ) * 100 / (mp : ℚ) + 1 / 2 =
      (((200 * a + mp : ℕ) : ℤ) : ℚ) / ((2 * mp : ℕ) : ℚ) := by
    push_cast
    field_simp
    ring
  rw [heq, Rat.floor_intCast_div_natCast]
  norm_cast

/-- The integer-hundredths rounding `round2cent` is exactly the rational two-decimal rounding `round2Q` of the quotient, read at hundredths scale. -/
theorem round2cent_cast (d : Int) (mp : Nat) (hmp : 0 < mp) :
    ((round2cent d mp : Int) : ℚ) / 100 = round2Q ((d : ℚ) / (mp : ℚ)) := by
  have hmpQ : (0 : ℚ) < (mp : ℚ) := by exact_mod_cast hmp
  simp only [round2cent, round2Q]
  by_cases hd : d < 0
  · have hq : (d : ℚ) / (mp : ℚ) < 0 :=
      div_neg_of_neg_of_pos (by exact_mod_cast hd) hmpQ
    rw [if_pos hd, if_pos hq]
    have h2 : ((d.natAbs : ℕ) : ℤ) = -d := by omega
    have hna : ((d.natAbs : ℕ) : ℚ) = -(d : ℚ) := by
      calc ((d.natAbs : ℕ) : ℚ) = (((d.natAbs : ℕ) : ℤ) : ℚ) :=
          (Int.cast_natCast d.natAbs).symm
        _ = ((-d : ℤ) : ℚ) := by rw [h2]
        _ = -(d : ℚ) := by push_cast; ring
    have harg : -((d : ℚ) / (mp : ℚ)) * 100 + 1 / 2 =
        (d.natAbs : ℚ) * 100 / (mp : ℚ) + 1 / 2 := by
      rw [hna]
      ring
    rw [harg, floor_quot_helper d.natAbs mp hmp]
    push_cast
    ring
  · push_neg at hd
    have hq : ¬ ((d : ℚ) / (mp : ℚ) < 0) :=
      not_lt.mpr (div_nonneg (by exact_mod_cast hd) (le_of_lt hmpQ))
    rw [if_neg (not_lt.mpr hd), if_neg hq]
    have h2 : ((d.natAbs : ℕ) : ℤ) = d := by omega
    have hna : ((d.natAbs : ℕ) : ℚ) = (d : ℚ) := by
      calc ((d.natAbs : ℕ) : ℚ) = (((d.natAbs : ℕ) : ℤ) : ℚ) :=
          (Int.cast_natCast d.natAbs).symm
        _ = (d : ℚ) := by rw [h2]
    have harg : (d : ℚ) / (mp : ℚ) * 100 + 1 / 2 =
        (d.natAbs : ℚ) * 100 / (mp : ℚ) + 1 / 2 := by
      rw [hna]
      ring
    rw [harg, floor_quot_helper d.natAbs mp hmp]

/-- A team satisfying the fixed-point net-run-rate formula also satisfies its rational-scale reading. -/
theorem nrrOK_implies_nrrOKQ (tm : Team) (h : nrrOK tm = true) : nrrOKQ tm := by
  simp only [nrrOK, beq_iff_eq] at h
  unfold nrrOKQ
  by_cases hmp : 0 < tm.matchesPlayed
  · rw [if_pos hmp] at h ⊢
    rw [h, round2cent_cast _ _ hmp]
    congr 1
    push_cast
    ring
  · rw [if_neg hmp] at h ⊢
    rw [h]
    norm_num

/-- Lift of `nrrOK_implies_nrrOKQ` to the optional team at an index. -/
theorem optNrrOKQ_of_all (o : Option Team) (h : Option.all nrrOK o = true) :
    optNrrOKQ o := by
  cases o with
  | none => simp [optNrrOKQ]
  | some a => exact nrrOK_implies_nrrOKQ a (by simpa using h)

/-- A successful `recordMatch` preserves `matchesPlayed = wins + losses + noResults` for every stored team, in all three outcome branches and also when both lookups alias the same node. -/
theorem recordMatch_ok_balanced (t : Tournament) (team1 team2 : String)
    (s1 s2 : Int) (now : Nat) (m : MatchRec) (t' : Tournament)
    (hrec : recordMatch t team1 team2 s1 s2 now = Except.ok (m, t'))
    (hbal : t.teams.all balancedTeam = true) :
    t'.teams.all balancedTeam = true := by
  rw [List.all_eq_true] at hbal
  unfold recordMatch at hrec
  cases hfi : findTeamIdx t.teams team1 with
  | none =>
    rw [hfi] at hrec
    cases hfj : findTeamIdx t.teams team2 <;> rw [hfj] at hrec <;> simp at hrec
  | some i =>
    cases hfj : findTeamIdx t.teams team2 with
    | none => rw [hfi, hfj] at hrec; simp at hrec
    | some j =>
      rw [hfi, hfj] at hrec
      simp only [Except.ok.injEq, Prod.mk.injEq] at hrec
      obtain ⟨hm, ht⟩ := hrec
      subst ht
      rw [List.all_eq_true]
      intro x hx
      rw [List.mem_iff_getElem?] at hx
      obtain ⟨k, hk⟩ := hx
      rcases lt_trichotomy s2 s1 with hs | hs | hs
      · by_cases hki : k = i
        · subst hki
          by_cases hij : k = j
          · subst hij
            simp [listModify_getElem?, hs, lt_asymm hs, Option.map_map,
              Option.map_eq_some', Function.comp] at hk
            obtain ⟨a, ha, hax⟩ := hk
            subst hax
            have hba := hbal _ (List.getElem?_mem ha)
            simp only [balancedTeam, beq_iff_eq] at hba ⊢
            omega
          · simp [listModify_getElem?, hs, lt_asymm hs, hij, Option.map_map,
              Option.map_eq_some', Function.comp] at hk
            obtain ⟨a, ha, hax⟩ := hk
            subst hax
            have hba := hbal _ (List.getElem?_mem ha)
            simp only [balancedTeam, beq_iff_eq] at hba ⊢
            omega
        · by_cases hkj : k = j
          · subst hkj
            simp [listModify_getElem?, hs, lt_asymm hs, hki, Option.map_map,
              Option.map_eq_some', Function.comp] at hk
            obtain ⟨a, ha, hax⟩ := hk
            subst hax
            have hba := hbal _ (List.getElem?_mem ha)
            simp only [balancedTeam, beq_iff_eq] at hba ⊢
            omega
          · simp [listModify_getElem?, hki, hkj, hs, lt_asymm hs] at hk
            exact hbal _ (List.getElem?_mem hk)
      · subst hs
        by_cases hki : k = i
        · subst hki
          by_cases hij : k = j
          · subst hij
            simp [listModify_getElem?, Option.map_map,
              Option.map_eq_some', Function.comp] at hk
            obtain ⟨a, ha, hax⟩ := hk
            subst hax
            have hba := hbal _ (List.getElem?_mem ha)
            simp only [balancedTeam, beq_iff_eq] at hba ⊢
            omega
          · simp [listModify_getElem?, hij, Option.map_map,
              Option.map_eq_some', Function.comp] at hk
            obtain ⟨a, ha, hax⟩ := hk
            subst hax
            have hba := hbal _ (List.getElem?_mem ha)
            simp only [balancedTeam, beq_iff_eq] at hba ⊢
            omega
        · by_cases hkj : k = j
          · subst hkj
            simp [listModify_getElem?, hki, Option.map_map,
              Option.map_eq_some', Function.comp] at hk
            obtain ⟨a, ha, hax⟩ := hk
            subst hax
            have hba := hbal _ (List.getElem?_mem ha)
            simp only [balancedTeam, beq_iff_eq] at hba ⊢
            omega
          · simp [listModify_getElem?, hki, hkj] at hk
            exact hbal _ (List.getElem?_mem hk)
      · by_cases hki : k = i
        · subst hki
          by_cases hij : k = j
          · subst hij
            simp [listModify_getElem?, hs, lt_asymm hs, Option.map_map,
              Option.map_eq_some', Function.comp] at hk
            obtain ⟨a, ha, hax⟩ := hk
            subst hax
            have hba := hbal _ (List.getElem?_mem ha)
            simp only [balancedTeam, beq_iff_eq] at hba ⊢
            omega
          · simp [listModify_getElem?, hs, lt_asymm hs, hij, Option.map_map,
              Option.map_eq_some', Function.comp] at hk
            obtain ⟨a, ha, hax⟩ := hk
            subst hax
            have hba := hbal _ (List.getElem?_mem ha)
            simp only [balancedTeam, beq_iff_eq] at hba ⊢
            omega
        · by_cases hkj : k = j
          · subst hkj
            simp [listModify_getElem?, hs, lt_asymm hs, hki, Option.map_map,
              Option.map_eq_some', Function.comp] at hk
            obtain ⟨a, ha, hax⟩ := hk
            subst hax
            have hba := hbal _ (List.getElem?_mem ha)
            simp only [balancedTeam, beq_iff_eq] at hba ⊢
            omega
          · simp [listModify_getElem?, hki, hkj, hs, lt_asymm hs] at hk
            exact hbal _ (List.getElem?_mem hk)

/-- One API-level `recordMatch` call preserves the counter balance (a thrown lookup failure leaves the state unchanged). -/
theorem recordMatchStep_balanced (t : Tournament) (c : MatchCall)
    (hbal : t.teams.all balancedTeam = true) :
    (recordMatchStep t c).teams.all balancedTeam = true := by
  unfold recordMatchStep
  cases hrec : recordMatch t c.team1 c.team2 c.score1 c.score2 c.date with
  | ok p =>
    obtain ⟨m, t'⟩ := p
    exact recordMatch_ok_balanced t c.team1 c.team2 c.score1 c.score2 c.date m t' hrec hbal
  | error e => exact hbal

/-- Any sequence of `recordMatch` calls preserves the counter balance. -/
theorem runMatches_balanced (t : Tournament) (cs : List MatchCall)
    (hbal : t.teams.all balancedTeam = true) :
    (runMatches t cs).teams.all balancedTeam = true := by
  induction cs generalizing t with
  | nil => exact hbal
  | cons c cs ih =>
    rw [runMatches, List.foldl_cons]
    exact ih _ (recordMatchStep_balanced t c hbal)

/-- After a successful `recordMatch`, the team records at both looked-up indices satisfy the net-run-rate formula recomputed from their updated totals. -/
theorem recordMatch_ok_nrr (t : Tournament) (team1 team2 : String)
    (s1 s2 : Int) (now : Nat) (m : MatchRec) (t' : Tournament) (i j : Nat)
    (hi : findTeamIdx t.teams team1 = some i)
    (hj : findTeamIdx t.teams team2 = some j)
    (hrec : recordMatch t team1 team2 s1 s2 now = Except.ok (m, t')) :
    Option.all nrrOK t'.teams[i]? = true ∧
    Option.all nrrOK t'.teams[j]? = true := by
  unfold recordMatch at hrec
  rw [hi, hj] at hrec
  simp only [Except.ok.injEq, Prod.mk.injEq] at hrec
  obtain ⟨hm, ht⟩ := hrec
  subst ht
  rcases lt_trichotomy s2 s1 with hs | hs | hs
  · by_cases hij : i = j
    · subst hij
      refine ⟨?_, ?_⟩
      · simp [listModify_getElem?, Option.map_map, hs, lt_asymm hs]
        cases ha : t.teams[i]? with
        | none => simp
        | some a => simp [nrrOK, computeNRR, Function.comp]
      · simp [listModify_getElem?, Option.map_map, hs, lt_asymm hs]
        cases ha : t.teams[i]? with
        | none => simp
        | some a => simp [nrrOK, computeNRR, Function.comp]
    · refine ⟨?_, ?_⟩
      · simp [listModify_getElem?, Option.map_map, hs, lt_asymm hs, hij, Ne.symm hij]
        cases ha : t.teams[i]? with
        | none => simp
        | some a => simp [nrrOK, computeNRR, Function.comp]
      · simp [listModify_getElem?, Option.map_map, hs, lt_asymm hs, hij, Ne.symm hij]
        cases ha : t.teams[j]? with
        | none => simp
        | some a => simp [nrrOK, computeNRR, Function.comp]
  · subst hs
    by_cases hij : i = j
    · subst hij
      refine ⟨?_, ?_⟩
      · simp [listModify_getElem?, Option.map_map, lt_irrefl]
        cases ha : t.teams[i]? with
        | none => simp
        | some a => simp [nrrOK, computeNRR, Function.comp]
      · simp [listModify_getElem?, Option.map_map, lt_irrefl]
        cases ha : t.teams[i]? with
        | none => simp
        | some a => simp [nrrOK, computeNRR, Function.comp]
    · refine ⟨?_, ?_⟩
      · simp [listModify_getElem?, Option.map_map, lt_irrefl, hij, Ne.symm hij]
        cases ha : t.teams[i]? with
        | none => simp
        | some a => simp [nrrOK, computeNRR, Function.comp]
      · simp [listModify_getElem?, Option.map_map, lt_irrefl, hij, Ne.symm hij]
        cases ha : t.teams[j]? with
        | none => simp
        | some a => simp [nrrOK, computeNRR, Function.comp]
  · by_cases hij : i = j
    · subst hij
      refine ⟨?_, ?_⟩
      · simp [listModify_getElem?, Option.map_map, hs, lt_asymm hs]
        cases ha : t.teams[i]? with
        | none => simp
        | some a => simp [nrrOK, computeNRR, Function.comp]
      · simp [listModify_getElem?, Option.map_map, hs, lt_asymm hs]
        cases ha : t.teams[i]? with
        | none => simp
        | some a => simp [nrrOK, computeNRR, Function.comp]
    · refine ⟨?_, ?_⟩
      · simp [listModify_getElem?, Option.map_map, hs, lt_asymm hs, hij, Ne.symm hij]
        cases ha : t.teams[i]? with
        | none => simp
        | some a => simp [nrrOK, computeNRR, Function.comp]
      · simp [listModify_getElem?, Option.map_map, hs, lt_asymm hs, hij, Ne.symm hij]
        cases ha : t.teams[j]? with
        | none => simp
        | some a => simp [nrrOK, computeNRR, Function.comp]

/-- Claim C1: for every sequence of `recordMatch` calls on teams registered with zeroed counters, each team's `matchesPlayed` equals `wins + losses + noResults` after every call, i.e. after the portion `pre` of any split of the call sequence. -/
theorem claim1_counters_balanced (t0 : Tournament)
    (hz : t0.teams.all zeroedTeam = true)
    (calls pre suf : List MatchCall) (_hsplit : calls = pre ++ suf) :
    (runMatches t0 pre).teams.all balancedTeam = true := by
  have hbal : t0.teams.all balancedTeam = true := by
    rw [List.all_eq_true] at hz ⊢
    intro x hx
    have hzx := hz x hx
    simp only [zeroedTeam, Bool.and_eq_true, beq_iff_eq] at hzx
    simp only [balancedTeam, beq_iff_eq]
    omega
  exact runMatches_balanced t0 pre hbal

/-- Witness for C1 at the concrete tournament `t0ex` and the single call `c180`. -/
theorem claim1_witness :
    t0ex.teams.all zeroedTeam = true ∧
    [c180] = [c180] ++ ([] : List MatchCall) ∧
    (runMatches t0ex [c180]).teams.all balancedTeam = true :=
  ⟨by decide, rfl,
    claim1_counters_balanced t0ex (by decide) [c180] [c180] [] rfl⟩

/-- Claim C2: when either named team is absent from the registry, `recordMatch` fails with the team-not-found error and the state after the call is exactly the state before: no team record, ledger entry or queue entry is mutated. -/
theorem claim2_not_found_no_mutation (t : Tournament) (c : MatchCall)
    (h : findTeam t.teams c.team1 = none ∨ findTeam t.teams c.team2 = none) :
    recordMatch t c.team1 c.team2 c.score1 c.score2 c.date =
      Except.error "Team not found" ∧
    recordMatchStep t c = t := by
  have herr : recordMatch t c.team1 c.team2 c.score1 c.score2 c.date =
      Except.error "Team not found" := by
    rcases h with h | h
    · have h1 : findTeamIdx t.teams c.team1 = none := by
        rw [findTeam, List.find?_eq_none] at h
        exact findIdx?_eq_none_of_all _ _ 0 h
      unfold recordMatch
      rw [h1]
    · have h2 : findTeamIdx t.teams c.team2 = none := by
        rw [findTeam, List.find?_eq_none] at h
        exact findIdx?_eq_none_of_all _ _ 0 h
      unfold recordMatch
      rw [h2]
      cases hfi : findTeamIdx t.teams c.team1 <;> rfl
  refine ⟨herr, ?_⟩
  unfold recordMatchStep
  rw [herr]

/-- Witness for C2: recording Ghost vs Alpha on `t0ex` fails and changes nothing. -/
theorem claim2_witness :
    findTeam t0ex.teams cGhost.team1 = none ∧
    (recordMatch t0ex cGhost.team1 cGhost.team2 cGhost.score1 cGhost.score2
        cGhost.date = Except.error "Team not found" ∧
      recordMatchStep t0ex cGhost = t0ex) :=
  ⟨by decide, claim2_not_found_no_mutation t0ex cGhost (Or.inl (by decide))⟩

/-- Claim C3: `standings()` returns a permutation of `all()` sorted by descending points with ties broken by descending net run rate, and the read is idempotent: re-sorting the returned sequence returns it unchanged, so repeated calls with no intervening mutation return the same sequence (in this pure embedding a repeated read of the same registry is the same function application). -/
theorem claim3_standings_sorted (l : List Team) :
    (getStandings l).Perm (getAllTeams l) ∧
    (getStandings l).Pairwise
      (fun a b => b.points < a.points ∨
        (a.points = b.points ∧ b.netRunRate ≤ a.netRunRate)) ∧
    getStandings (getStandings l) = getStandings l := by
  have hs := List.sorted_mergeSort standingsLE_trans standingsLE_total l
  refine ⟨List.mergeSort_perm l standingsLE, ?_, ?_⟩
  · exact hs.imp (fun {a b} h => by
      simpa only [standingsLE, Bool.or_eq_true, Bool.and_eq_true,
        decide_eq_true_eq] using h)
  · unfold getStandings getAllTeams
    exact List.mergeSort_of_sorted hs

/-- Claim C4: after every successful `recordMatch`, each participating team's `netRunRate` equals `(runsScored - runsConceded) / matchesPlayed` rounded half-away-from-zero to 2 decimal places when `matchesPlayed > 0` and `0` otherwise — stated both at the stored hundredths scale (`nrrOK`) and at rational scale (`optNrrOKQ`). -/
theorem claim4_nrr_recomputed (t : Tournament) (team1 team2 : String)
    (s1 s2 : Int) (now : Nat) (m : MatchRec) (t' : Tournament) (i j : Nat)
    (hi : findTeamIdx t.teams team1 = some i)
    (hj : findTeamIdx t.teams team2 = some j)
    (hrec : recordMatch t team1 team2 s1 s2 now = Except.ok (m, t')) :
    (Option.all nrrOK t'.teams[i]? = true ∧ optNrrOKQ t'.teams[i]?) ∧
    (Option.all nrrOK t'.teams[j]? = true ∧ optNrrOKQ t'.teams[j]?) := by
  have key := recordMatch_ok_nrr t team1 team2 s1 s2 now m t' i j hi hj hrec
  exact ⟨⟨key.1, optNrrOKQ_of_all _ key.1⟩, ⟨key.2, optNrrOKQ_of_all _ key.2⟩⟩

/-- Witness for C4 at the concrete recording Alpha 180 – Beta 150. -/
theorem claim4_witness :
    findTeamIdx t0ex.teams "Alpha" = some 0 ∧
    findTeamIdx t0ex.teams "Beta" = some 1 ∧
    recordMatch t0ex "Alpha" "Beta" 180 150 0 = Except.ok (m180ex, t180ex) ∧
    ((Option.all nrrOK t180ex.teams[0]? = true ∧ optNrrOKQ t180ex.teams[0]?) ∧
      (Option.all nrrOK t180ex.teams[1]? = true ∧ optNrrOKQ t180ex.teams[1]?)) :=
  ⟨by decide, by decide, by decide,
    claim4_nrr_recomputed t0ex "Alpha" "Beta" 180 150 0 m180ex t180ex 0 1
      (by decide) (by decide) (by decide)⟩

/-- Claim C5: recording equal scores for two distinct registered teams increments both teams' `noResults` and `points` by 1, prepends `'T'` to both forms (then capped at five entries), and reports the winner field as the literal string "Tie". -/
theorem claim5_tie_outcome (t : Tournament) (team1 team2 : String)
    (s1 s2 : Int) (now : Nat) (m : MatchRec) (t' : Tournament) (i j : Nat)
    (a b : Team)
    (hi : findTeamIdx t.teams team1 = some i)
    (hj : findTeamIdx t.teams team2 = some j)
    (hij : i ≠ j) (heq : s1 = s2)
    (ha : t.teams[i]? = some a) (hb : t.teams[j]? = some b)
    (hrec : recordMatch t team1 team2 s1 s2 now = Except.ok (m, t')) :
    m.winner = "Tie" ∧
    Option.map Team.noResults t'.teams[i]? = some (a.noResults + 1) ∧
    Option.map Team.points t'.teams[i]? = some (a.points + 1) ∧
    Option.map Team.form t'.teams[i]? = some (List.take 5 ('T' :: a.form)) ∧
    Option.map Team.noResults t'.teams[j]? = some (b.noResults + 1) ∧
    Option.map Team.points t'.teams[j]? = some (b.points + 1) ∧
    Option.map Team.form t'.teams[j]? = some (List.take 5 ('T' :: b.form)) := by
  subst heq
  unfold recordMatch at hrec
  rw [hi, hj] at hrec
  simp only [Except.ok.injEq, Prod.mk.injEq] at hrec
  obtain ⟨hm, ht⟩ := hrec
  subst ht
  subst hm
  refine ⟨?_, ?_, ?_, ?_, ?_, ?_, ?_⟩ <;>
    simp [listModify_getElem?, Option.map_map, hij, Ne.symm hij, ha, hb,
      Function.comp]

/-- Witness for C5 at the concrete tie Alpha 150 – Beta 150. -/
theorem claim5_witness :
    findTeamIdx t0ex.teams "Alpha" = some 0 ∧
    findTeamIdx t0ex.teams "Beta" = some 1 ∧
    (0 : Nat) ≠ 1 ∧
    (150 : Int) = 150 ∧
    t0ex.teams[0]? = some alphaNode ∧
    t0ex.teams[1]? = some betaNode ∧
    recordMatch t0ex "Alpha" "Beta" 150 150 0 = Except.ok (m150ex, t150ex) ∧
    (m150ex.winner = "Tie" ∧
      Option.map Team.noResults t150ex.teams[0]? =
        some (alphaNode.noResults + 1) ∧
      Option.map Team.points t150ex.teams[0]? = some (alphaNode.points + 1) ∧
      Option.map Team.form t150ex.teams[0]? =
        some (List.take 5 ('T' :: alphaNode.form)) ∧
      Option.map Team.noResults t150ex.teams[1]? =
        some (betaNode.noResults + 1) ∧
      Option.map Team.points t150ex.teams[1]? = some (betaNode.points + 1) ∧
      Option.map Team.form t150ex.teams[1]? =
        some (List.take 5 ('T' :: betaNode.form))) :=
  ⟨by decide, by decide, by decide, rfl, by decide, by decide, by decide,
    claim5_tie_outcome t0ex "Alpha" "Beta" 150 150 0 m150ex t150ex 0 1
      alphaNode betaNode (by decide) (by decide) (by decide) rfl
      (by decide) (by decide) (by decide)⟩

/-- Claim C6: `playoffTeams()` is `standings().slice(0, 4)`, hence returns exactly `min 4 teamCount` entries and is a prefix of `standings()`. -/
theorem claim6_playoff_prefix (t : Tournament) :
    getPlayoffTeams t = (getStandings t.teams).take 4 ∧
    (getPlayoffTeams t).length = min 4 (getTournamentStats t).totalTeams ∧
    ∃ rest, getStandings t.teams = getPlayoffTeams t ++ rest := by
  refine ⟨rfl, ?_, ⟨(getStandings t.teams).drop 4, ?_⟩⟩
  · simp [getPlayoffTeams, getStandings, getAllTeams, getTournamentStats,
      List.length_take]
  · exact (List.take_append_drop 4 _).symm

/-- Claim C7, amended: the boundary rejects a match request as a validation error exactly when a team name is missing or empty, or when both scores parse to zero (absent and non-numeric scores parse to 0); in particular a single absent or non-numeric score with a nonzero other score is not rejected — it is coerced to 0 and the core is invoked. -/
theorem claim7_boundary_rejection (t : Tournament) (team1 team2 : Option String)
    (s1 s2 : Option Int) (now : Nat) :
    isValidationError (postMatches t team1 team2 s1 s2 now) =
      (strFalsy team1 || strFalsy team2 ||
        (parseScore s1 == 0 && parseScore s2 == 0)) := by
  unfold postMatches
  by_cases h1 : (strFalsy team1 || strFalsy team2) = true
  · simp [h1, isValidationError]
  · simp only [Bool.not_eq_true] at h1
    by_cases h2 : (parseScore s1 == 0 && parseScore s2 == 0) = true
    · simp [h1, h2, isValidationError]
    · simp only [Bool.not_eq_true] at h2
      simp only [h1, h2, Bool.false_eq_true, if_false, Bool.or_self,
        Bool.or_false]
      cases hr : recordMatch t (team1.getD "") (team2.getD "")
          (parseScore s1) (parseScore s2) now with
      | ok p => obtain ⟨m, t'⟩ := p; simp [isValidationError]
      | error e => simp [isValidationError]

/-- Counterexample to C7 as stated: the request Alpha vs Beta with an absent first score and second score 150 has a non-numeric/absent score, yet the boundary does not reject it and the core records the match. -/
theorem claim7_counterexample :
    parseScore (none : Option Int) = 0 ∧
    isValidationError
      (postMatches t0ex (some "Alpha") (some "Beta") none (some 150) 0) =
        false ∧
    isRecorded
      (postMatches t0ex (some "Alpha") (some "Beta") none (some 150) 0) =
        true :=
  ⟨rfl, by decide, by decide⟩

/-- Claim C8: for a ledger of `n` recorded matches, the most-recent-`k` read returns the last `min k n` recorded entries in most-recent-first order, and an absent limit defaults to 50. -/
theorem claim8_history_recent (t : Tournament) (k : Nat) :
    getMatchHistory t (some k) =
      (t.matchHistory.drop (t.matchHistory.length - k)).reverse ∧
    (getMatchHistory t (some k)).length = min k t.matchHistory.length ∧
    getMatchHistory t none = getMatchHistory t (some 50) := by
  refine ⟨?_, ?_, rfl⟩
  · rw [getMatchHistory, stackGetAll]
    exact List.take_reverse
  · rw [getMatchHistory, stackGetAll]
    simp [List.length_take]

/-- Claim C9: when the two team names are equal case-insensitively, both lookups return the same team record, so that team's `matchesPlayed` rises by 2 and both scores are added to both its `runsScored` and its `runsConceded`. -/
theorem claim9_self_match (t : Tournament) (team1 team2 : String)
    (s1 s2 : Int) (now : Nat) (m : MatchRec) (t' : Tournament) (i : Nat)
    (a : Team)
    (hname : jsToLower team1 = jsToLower team2)
    (hi : findTeamIdx t.teams team1 = some i)
    (ha : t.teams[i]? = some a)
    (hrec : recordMatch t team1 team2 s1 s2 now = Except.ok (m, t')) :
    findTeam t.teams team1 = findTeam t.teams team2 ∧
    Option.map Team.matchesPlayed t'.teams[i]? = some (a.matchesPlayed + 2) ∧
    Option.map Team.runsScored t'.teams[i]? = some (a.runsScored + s1 + s2) ∧
    Option.map Team.runsConceded t'.teams[i]? =
      some (a.runsConceded + s2 + s1) := by
  have hpred : nameMatches team2 = nameMatches team1 := by
    funext tm
    unfold nameMatches
    rw [hname]
  have hj : findTeamIdx t.teams team2 = some i := by
    unfold findTeamIdx at hi ⊢
    rw [hpred]
    exact hi
  have hfind : findTeam t.teams team1 = findTeam t.teams team2 := by
    unfold findTeam
    rw [hpred]
  unfold recordMatch at hrec
  rw [hi, hj] at hrec
  simp only [Except.ok.injEq, Prod.mk.injEq] at hrec
  obtain ⟨hm, ht⟩ := hrec
  subst ht
  rcases lt_trichotomy s2 s1 with hs | hs | hs
  · refine ⟨hfind, ?_, ?_, ?_⟩ <;>
      (simp [listModify_getElem?, Option.map_map, ha, Function.comp, hs,
        lt_asymm hs]; try omega)
  · subst hs
    refine ⟨hfind, ?_, ?_, ?_⟩ <;>
      (simp [listModify_getElem?, Option.map_map, ha, Function.comp]; try omega)
  · refine ⟨hfind, ?_, ?_, ?_⟩ <;>
      (simp [listModify_getElem?, Option.map_map, ha, Function.comp, hs,
        lt_asymm hs]; try omega)

/-- Witness for C9 at the concrete self-match Alpha 100 – ALPHA 90. -/
theorem claim9_witness :
    jsToLower "Alpha" = jsToLower "ALPHA" ∧
    findTeamIdx t0ex.teams "Alpha" = some 0 ∧
    t0ex.teams[0]? = some alphaNode ∧
    recordMatch t0ex "Alpha" "ALPHA" 100 90 0 = Except.ok (mSelfEx, tSelfEx) ∧
    (findTeam t0ex.teams "Alpha" = findTeam t0ex.teams "ALPHA" ∧
      Option.map Team.matchesPlayed tSelfEx.teams[0]? =
        some (alphaNode.matchesPlayed + 2) ∧
      Option.map Team.runsScored tSelfEx.teams[0]? =
        some (alphaNode.runsScored + 100 + 90) ∧
      Option.map Team.runsConceded tSelfEx.teams[0]? =
        some (alphaNode.runsConceded + 90 + 100)) :=
  ⟨by decide, by decide, by decide, by decide,
    claim9_self_match t0ex "Alpha" "ALPHA" 100 90 0 mSelfEx tSelfEx 0
      alphaNode (by decide) (by decide) (by decide) (by decide)⟩

/-- Claim C10: registration stores the supplied form sequence exactly as given, without truncation or validation — a six-entry form is stored with length 6, violating the five-entry bound, and the bound is re-established only by the next `recordMatch` touching the team. -/
theorem claim10_form_stored_verbatim (td : TeamData) (fs : List Char)
    (h : td.form = some fs) :
    (mkTeamNode td).form = fs ∧
    (mkTeamNode sixFormData).form.length = 6 ∧
    (addTeam [] sixFormData).all formLenOK = false ∧
    (recordMatchStep t6ex czeta).teams.all formLenOK = true := by
  refine ⟨?_, by decide, by decide, by decide⟩
  simp [mkTeamNode, jsOrList, h]

/-- Witness for C10 at the concrete six-entry registration data. -/
theorem claim10_witness :
    sixFormData.form = some ['W', 'W', 'L', 'T', 'W', 'L'] ∧
    ((mkTeamNode sixFormData).form = ['W', 'W', 'L', 'T', 'W', 'L'] ∧
      (mkTeamNode sixFormData).form.length = 6 ∧
      (addTeam [] sixFormData).all formLenOK = false ∧
      (recordMatchStep t6ex czeta).teams.all formLenOK = true) :=
  ⟨rfl, claim10_form_stored_verbatim sixFormData ['W', 'W', 'L', 'T', 'W', 'L'] rfl⟩

end IPL
